import Mathlib

/-!
Verification of evm-node-check: a shallow embedding of the
consistency-checking core of
`sxwebdev/evm-node-check` (`internal/checker/checker.go`,
`internal/config/config.go`), with theorems settling the frozen claims
about its specification.

Modelling conventions:
* `common.Hash` is modelled as `Nat`; `*big.Int` chain IDs as `Option Int`;
  `uint64` block numbers as `Nat` (with explicit wrap-around `% 2^64` where
  Go's `uint64` subtraction could matter, see `goSub64`).
* Go maps are modelled as association lists with `List.lookup` (map
  semantics: first binding wins), and the set of distinct keys/values via
  `List.dedup`.  Go's map iteration order is unspecified; the embedding
  fixes one concrete order, and every theorem below about the map-driven
  code depends only on facts that hold for any iteration order.
* Network I/O of one RPC endpoint is abstracted as an `Endpoint` record of
  oracle results; `checkNode` is the pure function of those results that
  the Go method body computes.
-/

namespace EvmNodeCheck

/-- Model of `Options` from checker.go.  `BlockHashCount` is a Go `int`; the probe
loop `for i := 0; i < BlockHashCount; i++` runs zero times for any
non-positive value, so `Nat` (with 0 standing for all of those) is a
faithful model.  `MaxBlockGap` is a `uint64`. -/
structure OptionsM where
  maxBlockGap : Nat
  blockHashCount : Nat
  checkDebugMode : Bool
deriving DecidableEq

/-- Model of `DefaultOptions` from checker.go. -/
def DefaultOptions : OptionsM :=
  { maxBlockGap := 10, blockHashCount := 5, checkDebugMode := true }

/-- A block hash (`common.Hash`). -/
abbrev Hash := Nat

/-- Model of `config.NodeInfo`: the flattened node descriptor handed to the checker. -/
structure NodeInfo where
  id : String
  chain : String
  address : String
deriving DecidableEq

/-- Model of `NodeResult` from checker.go.  `BlockHashes map[uint64]common.Hash` is
an association list read through `List.lookup`; `Error error` is an
optional message string. -/
structure NodeResult where
  id : String
  chain : String
  address : String
  chainID : Option Int
  blockNumber : Nat
  blockHashes : List (Nat × Hash)
  debugOK : Bool
  error : Option String
deriving DecidableEq

/-- Model of `FailedNode` from checker.go. -/
structure FailedNode where
  id : String
  chain : String
  address : String
  reason : String
deriving DecidableEq

/-- Model of `ChainResult` from checker.go. -/
structure ChainResult where
  chain : String
  nodes : List NodeResult
  expectedChainID : Option Int
  maxBlockNumber : Nat
  failedNodes : List FailedNode
  passed : Bool
deriving DecidableEq

/-- Model of `CheckResult` from checker.go. -/
structure CheckResult where
  chainResults : List ChainResult
  failedNodes : List FailedNode
  passed : Bool
deriving DecidableEq

/-! ## Reason strings (the `fmt.Sprintf` formats of checker.go) -/

/-- Reason format `"connection error: %v"` (checker.go line 149). -/
def connReason (e : String) : String := "connection error: " ++ e

/-- Reason format `"chain ID mismatch: expected %s, got %s"` (checker.go line 161). -/
def mismatchReason (expected got : Int) : String :=
  "chain ID mismatch: expected " ++ toString expected ++ ", got " ++ toString got

/-- Reason format `"block gap too large: %d blocks behind (max allowed: %d)"`
(checker.go line 173). -/
def gapReason (gap maxGap : Nat) : String :=
  "block gap too large: " ++ toString gap ++ " blocks behind (max allowed: "
    ++ toString maxGap ++ ")"

/-- Reason string `"debug mode not available (debug_traceBlockByNumber not supported)"`
(checker.go line 185). -/
def debugReason : String :=
  "debug mode not available (debug_traceBlockByNumber not supported)"

/-- Reason format `"block hash mismatch at block %d: got %s, expected %s"`
(checker.go line 346); hash rendering is abstracted to `toString`. -/
def hashMismatchReason (blockNum : Nat) (got expected : Hash) : String :=
  "block hash mismatch at block " ++ toString blockNum ++ ": got "
    ++ toString got ++ ", expected " ++ toString expected

/-- Go's `strings.HasPrefix` / "reason string begins with": the data of
`p` is a list-prefix of the data of `s`. -/
def strBeginsWith (s p : String) : Bool := p.data.isPrefixOf s.data

/-! ## checkChain: baselines and rule classification -/

/-- Go `uint64` subtraction `a - b` (wraps modulo `2^64`), for
`a, b < 2^64`.  Used by the block-gap check (checker.go line 168). -/
def goSub64 (a b : Nat) : Nat := (a + 2 ^ 64 - b) % 2 ^ 64

/-- checker.go lines 127–133: the expected chain ID is taken from the first
node (input order) with `Error == nil && ChainID != nil`. -/
def expectedChainIDOf (nodes : List NodeResult) : Option Int :=
  match nodes.find? (fun n => n.error.isNone && n.chainID.isSome) with
  | some n => n.chainID
  | none => none

/-- checker.go lines 135–140: running maximum of `BlockNumber` over nodes
with `Error == nil`, starting from the zero value 0. -/
def maxBlockNumberOf (nodes : List NodeResult) : Nat :=
  nodes.foldl
    (fun m n => if n.error.isNone && decide (n.blockNumber > m) then n.blockNumber else m) 0

/-- Rules (c) and (d) of checker.go lines 167–189, reached by a node that
passed the error and chain-ID rules: the block-gap check (Go `uint64`
subtraction) and then the debug-mode check. -/
def classifyTail (opts : OptionsM) (maxBlock : Nat) (n : NodeResult) : Option FailedNode :=
  if goSub64 maxBlock n.blockNumber > opts.maxBlockGap then
    some { id := n.id, chain := n.chain, address := n.address,
           reason := gapReason (goSub64 maxBlock n.blockNumber) opts.maxBlockGap }
  else if opts.checkDebugMode && !n.debugOK then
    some { id := n.id, chain := n.chain, address := n.address, reason := debugReason }
  else
    none

/-- Lines 142–190 of checker.go: classify one node by the first matching
rule (error, chain-ID mismatch, block gap, debug mode); at most one
record (Go `continue`s after the first hit).  When `expected` is present
Go dereferences `node.ChainID`; results coming from `checkNode` with
`Error == nil` always carry a chain ID, so the `none` fallthrough below
is unreachable on the code's own inputs. -/
def classify (opts : OptionsM) (expected : Option Int) (maxBlock : Nat)
    (n : NodeResult) : Option FailedNode :=
  match n.error with
  | some e =>
      some { id := n.id, chain := n.chain, address := n.address, reason := connReason e }
  | none =>
      match expected, n.chainID with
      | some exp, some cid =>
          if cid ≠ exp then
            some { id := n.id, chain := n.chain, address := n.address,
                   reason := mismatchReason exp cid }
          else classifyTail opts maxBlock n
      | _, _ => classifyTail opts maxBlock n

/-- The validation loop of checker.go lines 142–190: one optional record
per node, appended in input order. -/
def ruleFailures (opts : OptionsM) (nodes : List NodeResult) : List FailedNode :=
  nodes.filterMap (classify opts (expectedChainIDOf nodes) (maxBlockNumberOf nodes))

/-! ## checkBlockHashes: majority vote per block height -/

/-- Nodes with `Error == nil` (the only contributors to
`blockHashNodes`, checker.go lines 298–301). -/
def succNodes (nodes : List NodeResult) : List NodeResult :=
  nodes.filter (fun n => n.error.isNone)

/-- Entry `blockHashNodes[blockNum][h]`: IDs (input order) of error-free nodes
whose hash map sends `blockNum` to `h` (checker.go lines 296–308). -/
def reportingNodes (nodes : List NodeResult) (blockNum : Nat) (h : Hash) : List String :=
  ((succNodes nodes).filter
    (fun n => decide (n.blockHashes.lookup blockNum = some h))).map (fun n => n.id)

/-- The distinct hashes reported at `blockNum` (the key set of
`blockHashNodes[blockNum]`). -/
def hashesAt (nodes : List NodeResult) (blockNum : Nat) : List Hash :=
  ((succNodes nodes).filterMap (fun n => n.blockHashes.lookup blockNum)).dedup

/-- The distinct block heights observed in any error-free node's hash map
(the key set of `blockHashNodes`). -/
def observedHeights (nodes : List NodeResult) : List Nat :=
  ((succNodes nodes).flatMap (fun n => n.blockHashes.map Prod.fst)).dedup

/-- checker.go lines 316–324: the majority hash is the one with the
strictly greatest reporting count scanned in iteration order, starting
from the zero hash with count 0. -/
def pickMajority (nodes : List NodeResult) (blockNum : Nat) (hs : List Hash) : Hash × Nat :=
  hs.foldl
    (fun acc h =>
      if (reportingNodes nodes blockNum h).length > acc.2 then
        (h, (reportingNodes nodes blockNum h).length)
      else acc)
    (0, 0)

/-- checker.go lines 333–340: the address of the first node in
`result.Nodes` whose ID equals `nodeID` (zero string when none matches). -/
def nodeAddrFor (nodes : List NodeResult) (nodeID : String) : String :=
  match nodes.find? (fun n => n.id == nodeID) with
  | some n => n.address
  | none => ""

/-- checker.go lines 333–340: the chain of the first node in
`result.Nodes` whose ID equals `nodeID` (zero string when none matches). -/
def nodeChainFor (nodes : List NodeResult) (nodeID : String) : String :=
  match nodes.find? (fun n => n.id == nodeID) with
  | some n => n.chain
  | none => ""

/-- checker.go lines 331–349: one record per reporter of a non-majority
hash `h` at `blockNum`. -/
def mkHashFailures (nodes : List NodeResult) (blockNum : Nat) (h majority : Hash) :
    List FailedNode :=
  (reportingNodes nodes blockNum h).map (fun nodeID =>
    { id := nodeID, chain := nodeChainFor nodes nodeID, address := nodeAddrFor nodes nodeID,
      reason := hashMismatchReason blockNum h majority })

/-- checker.go lines 311–351, body for one block height: unanimous heights
produce nothing, otherwise every reporter of a non-majority hash is
flagged. -/
def failuresAtHeight (nodes : List NodeResult) (blockNum : Nat) : List FailedNode :=
  if (hashesAt nodes blockNum).length ≤ 1 then []
  else
    ((hashesAt nodes blockNum).filter
        (fun h => h ≠ (pickMajority nodes blockNum (hashesAt nodes blockNum)).1)).flatMap
      (fun h => mkHashFailures nodes blockNum h
        (pickMajority nodes blockNum (hashesAt nodes blockNum)).1)

/-- Model of `checkBlockHashes` (checker.go lines 294–352): the hash-mismatch
records over all observed heights. -/
def hashFailures (nodes : List NodeResult) : List FailedNode :=
  (observedHeights nodes).flatMap (failuresAtHeight nodes)

/-- Model of `checkChain` (checker.go lines 100–196) after the probe results are
in: baselines, rule classification, then the hash-consistency pass.  Go
sets `Passed` to `false` exactly when it appends a record in either pass,
so `Passed` is the emptiness of both record lists. -/
def checkChain (opts : OptionsM) (chain : String) (nodes : List NodeResult) : ChainResult :=
  let rf := ruleFailures opts nodes
  let hf := hashFailures nodes
  { chain := chain
    nodes := nodes
    expectedChainID := expectedChainIDOf nodes
    maxBlockNumber := maxBlockNumberOf nodes
    failedNodes := rf ++ hf
    passed := rf.isEmpty && hf.isEmpty }

/-! ## checkNode: the per-node probe -/

/-- The four remote operations `checkNode` performs against one address,
abstracted as oracle results.  `blockAt k = none` covers every non-fatal
sub-fetch outcome of checker.go lines 244–268: RPC error, `null` result
(block not found), or unmarshal failure.  `debugAt` is the
success/failure of `debug_traceBlockByNumber` at a given height. -/
structure Endpoint where
  dialErr : Option String
  chainIDRes : Except String Int
  blockNumberRes : Except String Nat
  blockAt : Nat → Option Hash
  debugAt : Nat → Bool

/-- The hash-window loop of checker.go lines 237–271, from index `i` with
`fuel` iterations left: stop when `blockNumber < i` (avoiding a negative
target), otherwise record the fetched hash for `blockNumber - i` when the
sub-fetch yields one and continue either way. -/
def collectHashesFrom (fetch : Nat → Option Hash) (blockNumber : Nat) :
    Nat → Nat → List (Nat × Hash)
  | _, 0 => []
  | i, fuel + 1 =>
    if blockNumber < i then []
    else
      match fetch (blockNumber - i) with
      | some h => (blockNumber - i, h) :: collectHashesFrom fetch blockNumber (i + 1) fuel
      | none => collectHashesFrom fetch blockNumber (i + 1) fuel

/-- The full hash window: `for i := 0; i < count; i++`. -/
def collectHashes (fetch : Nat → Option Hash) (blockNumber count : Nat) :
    List (Nat × Hash) :=
  collectHashesFrom fetch blockNumber 0 count

/-- Model of `checkNode` (checker.go lines 203–292) as a pure function of the
endpoint's oracle results.  Each required step that fails sets `Error`
(with the Go wrap message) and returns at once; the per-block hash
fetches and the debug probe are non-fatal. -/
def checkNode (opts : OptionsM) (n : NodeInfo) (ep : Endpoint) : NodeResult :=
  let base : NodeResult :=
    { id := n.id, chain := n.chain, address := n.address,
      chainID := none, blockNumber := 0, blockHashes := [],
      debugOK := false, error := none }
  match ep.dialErr with
  | some e => { base with error := some ("failed to connect: " ++ e) }
  | none =>
    match ep.chainIDRes with
    | .error e => { base with error := some ("failed to get chain ID: " ++ e) }
    | .ok cid =>
      match ep.blockNumberRes with
      | .error e =>
          { base with chainID := some cid,
                      error := some ("failed to get block number: " ++ e) }
      | .ok bn =>
          { base with
              chainID := some cid
              blockNumber := bn
              blockHashes := collectHashes ep.blockAt bn opts.blockHashCount
              debugOK := if opts.checkDebugMode then ep.debugAt bn else true }

/-! ## Configuration (config.go) -/

/-- Model of `config.Connector` (the YAML `type` field is called `ctype` here). -/
structure Connector where
  ctype : String
  url : String
deriving DecidableEq

/-- Model of `config.Upstream`. -/
structure Upstream where
  id : String
  chain : String
  connectors : List Connector
deriving DecidableEq

/-- Model of `config.Config` (flattening the `upstream-config` wrapper). -/
structure Config where
  upstreams : List Upstream
deriving DecidableEq

/-- All `(upstream ID, connector)` pairs in declaration order, as the
validation loop of `Load` visits them. -/
def connectorPairs (cfg : Config) : List (String × Connector) :=
  cfg.upstreams.flatMap (fun u => u.connectors.map (fun c => (u.id, c)))

/-- The duplicate/empty-URL scan of `Load` (config.go lines 52–63):
the first error it raises, or `none` when the scan passes. -/
def findURLError (seen : List String) : List (String × Connector) → Option String
  | [] => none
  | (uid, c) :: rest =>
    if c.url = "" then some ("upstream " ++ uid ++ " has empty connector URL")
    else if c.url ∈ seen then some ("duplicate connector URL: " ++ c.url)
    else findURLError (c.url :: seen) rest

/-- The validation part of `config.Load` (config.go lines 47–63), applied
to an already-parsed `Config`: reject an empty upstream list, then scan
every connector for empty or duplicate URLs. -/
def validateConfig (cfg : Config) : Except String Config :=
  if cfg.upstreams.isEmpty then .error "no upstreams configured in config file"
  else
    match findURLError [] (connectorPairs cfg) with
    | some e => .error e
    | none => .ok cfg

/-- Nodes flattened by `Config.GetNodesByChain`: only connectors of type
`"json-rpc"` become nodes (config.go lines 72–83). -/
def allNodes (cfg : Config) : List NodeInfo :=
  cfg.upstreams.flatMap (fun u => u.connectors.filterMap (fun c =>
    if c.ctype == "json-rpc" then
      some { id := u.id, chain := u.chain, address := c.url }
    else none))

/-- The key set of the `map[string][]NodeInfo` built by
`GetNodesByChain`. -/
def chainNames (cfg : Config) : List String :=
  ((allNodes cfg).map (fun n => n.chain)).dedup

/-- Model of `Config.GetNodesByChain` as an association list: each chain with its
nodes in declaration order. -/
def getNodesByChain (cfg : Config) : List (String × List NodeInfo) :=
  (chainNames cfg).map (fun c => (c, (allNodes cfg).filter (fun n => n.chain == c)))

/-! ## Check: the evaluation entry point -/

/-- Model of `Checker.Check` (checker.go lines 78–98): run `checkChain` over every
chain, concatenate the failure records, AND the per-chain verdicts.  Note
the Go method always returns a nil error. -/
def check (opts : OptionsM) (cfg : Config) (ep : String → Endpoint) : CheckResult :=
  let crs := (getNodesByChain cfg).map (fun entry =>
    checkChain opts entry.1 (entry.2.map (fun i => checkNode opts i (ep i.address))))
  { chainResults := crs
    failedNodes := crs.flatMap (fun cr => cr.failedNodes)
    passed := crs.all (fun cr => cr.passed) }

/-- The run pipeline of `cmd/evm-node-check` (main.go lines 70–97):
`config.Load`'s validation, then `Checker.Check` (which cannot fail), so
the only way not to get a report is a configuration error. -/
def runCheck (opts : OptionsM) (cfg : Config) (ep : String → Endpoint) :
    Except String CheckResult :=
  match validateConfig cfg with
  | .error e => .error e
  | .ok c => .ok (check opts c ep)

/-! ## String helpers -/

/-- Data of an appended string. -/
theorem strData_append (a b : String) : (a ++ b).data = a.data ++ b.data := by
  cases a with
  | mk l1 =>
    cases b with
    | mk l2 => rfl

/-- Associativity of string append. -/
theorem strAppend_assoc (a b c : String) : a ++ b ++ c = a ++ (b ++ c) := by
  cases a with
  | mk l1 =>
    cases b with
    | mk l2 =>
      cases c with
      | mk l3 =>
        show String.mk (l1 ++ l2 ++ l3) = String.mk (l1 ++ (l2 ++ l3))
        rw [List.append_assoc]

/-- A gap-rule reason never coincides with the debug-rule reason (their
first characters differ). -/
theorem gapReason_ne_debugReason (g mg : Nat) : gapReason g mg ≠ debugReason := by
  intro h
  have h2 := congrArg String.data h
  simp only [gapReason, debugReason, strData_append] at h2
  simp only [List.cons_append, List.append_assoc] at h2
  injection h2 with hbd _
  exact absurd hbd (by decide)

/-! ## Arithmetic helpers -/

/-- For in-range operands with `b ≤ a`, Go's `uint64` subtraction is plain
subtraction: no wrap-around occurs. -/
theorem goSub64_eq (a b : Nat) (hba : b ≤ a) (ha : a < 2 ^ 64) :
    goSub64 a b = a - b := by
  unfold goSub64
  omega

/-! ## The maximum height over successful nodes -/

/-- The specification's formulation of the baseline height: the maximum
`height` over exactly the nodes without `failure`, 0 when none
succeeded. -/
def maxHeightOfSuccessful (nodes : List NodeResult) : Nat :=
  ((succNodes nodes).map (fun n => n.blockNumber)).foldr max 0

/-- The running-maximum fold of checker.go lines 135–140 computes the
specification's maximum over successful nodes. -/
theorem maxBlockNumberOf_eq (nodes : List NodeResult) :
    maxBlockNumberOf nodes = maxHeightOfSuccessful nodes := by
  have key : ∀ (l : List NodeResult) (acc : Nat),
      l.foldl (fun m n => if n.error.isNone && decide (n.blockNumber > m)
                then n.blockNumber else m) acc
        = max acc (maxHeightOfSuccessful l) := by
    intro l
    induction l with
    | nil =>
      intro acc
      simp [maxHeightOfSuccessful, succNodes]
    | cons n t ih =>
      intro acc
      rw [List.foldl_cons, ih]
      by_cases he : n.error.isNone
      · have hs : maxHeightOfSuccessful (n :: t)
            = max n.blockNumber (maxHeightOfSuccessful t) := by
          simp [maxHeightOfSuccessful, succNodes, List.filter_cons, he]
        rw [hs]
        simp only [he, Bool.true_and]
        rcases Nat.lt_or_ge acc n.blockNumber with hlt | hge
        · rw [if_pos (by simpa using hlt)]
          omega
        · rw [if_neg (by simpa using Nat.not_lt.mpr hge)]
          omega
      · have hs : maxHeightOfSuccessful (n :: t) = maxHeightOfSuccessful t := by
          simp [maxHeightOfSuccessful, succNodes, List.filter_cons, he]
        have hstep : (if n.error.isNone && decide (n.blockNumber > acc)
            then n.blockNumber else acc) = acc := by
          simp [Bool.eq_false_iff.mpr he]
        rw [hs, hstep]
  unfold maxBlockNumberOf
  rw [key]
  omega

/-- Every member of a list is bounded by the fold of `max` over it. -/
theorem le_foldr_max (l : List Nat) (x : Nat) (hx : x ∈ l) : x ≤ l.foldr max 0 := by
  induction l with
  | nil => cases hx
  | cons a t ih =>
    rcases List.mem_cons.mp hx with h | h
    · subst h
      simp only [List.foldr_cons]
      omega
    · have := ih h
      simp only [List.foldr_cons]
      omega

/-- The fold of `max` over a list of bounded values stays bounded. -/
theorem foldr_max_lt (l : List Nat) (B : Nat) (hB : 0 < B) (h : ∀ x ∈ l, x < B) :
    l.foldr max 0 < B := by
  induction l with
  | nil => simpa
  | cons a t ih =>
    simp only [List.foldr_cons]
    have ha := h a (by simp)
    have ht := ih (fun x hx => h x (by simp [hx]))
    omega

/-- A successful node's height never exceeds the chain's maximum height. -/
theorem blockNumber_le_max (nodes : List NodeResult) (n : NodeResult)
    (hn : n ∈ nodes) (he : n.error = none) :
    n.blockNumber ≤ maxBlockNumberOf nodes := by
  rw [maxBlockNumberOf_eq]
  unfold maxHeightOfSuccessful
  apply le_foldr_max
  exact List.mem_map.mpr ⟨n, List.mem_filter.mpr ⟨hn, by simp [he]⟩, rfl⟩

/-- The chain's maximum height is in `uint64` range when every node's
height is. -/
theorem maxBlockNumberOf_lt (nodes : List NodeResult)
    (hb : ∀ m ∈ nodes, m.blockNumber < 2 ^ 64) :
    maxBlockNumberOf nodes < 2 ^ 64 := by
  rw [maxBlockNumberOf_eq]
  unfold maxHeightOfSuccessful
  apply foldr_max_lt
  · positivity
  · intro x hx
    rcases List.mem_map.mp hx with ⟨m, hm, rfl⟩
    exact hb m (List.mem_filter.mp hm).1

/-! ## Claim C5: the chain verdict -/

/-- C5: for every chain, `passed` is true iff no rule failure and no
hash-mismatch failure was recorded, and any hash-mismatch record at any
height forces `passed` to false even when the ordered rules (a)–(d)
flagged no node. -/
theorem passed_iff_no_failures (opts : OptionsM) (chain : String)
    (nodes : List NodeResult) :
    ((checkChain opts chain nodes).passed = true ↔
        ruleFailures opts nodes = [] ∧ hashFailures nodes = [])
    ∧ ((checkChain opts chain nodes).passed = true ↔
        (checkChain opts chain nodes).failedNodes = [])
    ∧ (hashFailures nodes ≠ [] → (checkChain opts chain nodes).passed = false) := by
  refine ⟨?_, ?_, ?_⟩
  · simp [checkChain, List.isEmpty_iff]
  · simp [checkChain, List.isEmpty_iff]
  · intro hne
    simp [checkChain, List.isEmpty_iff, hne]

/-! ## Claim C7: the hash-window loop of checkNode -/

/-- The loop gathers at most `fuel` entries. -/
theorem collectHashesFrom_length (fetch : Nat → Option Hash) (bn : Nat) :
    ∀ (fuel i : Nat), (collectHashesFrom fetch bn i fuel).length ≤ fuel := by
  intro fuel
  induction fuel with
  | zero =>
    intro i
    simp [collectHashesFrom]
  | succ f ih =>
    intro i
    unfold collectHashesFrom
    by_cases hlt : bn < i
    · simp [hlt]
    · rw [if_neg hlt]
      cases hf : fetch (bn - i) with
      | some h =>
        have := ih (i + 1)
        simpa using Nat.succ_le_succ this
      | none =>
        have := ih (i + 1)
        show (collectHashesFrom fetch bn (i + 1) f).length ≤ f + 1
        omega

/-- Membership in the loop's output, generalized over the start index. -/
theorem mem_collectHashesFrom (fetch : Nat → Option Hash) (bn k : Nat) (h : Hash) :
    ∀ (fuel i : Nat),
      ((k, h) ∈ collectHashesFrom fetch bn i fuel ↔
        ∃ j, i ≤ j ∧ j < i + fuel ∧ j ≤ bn ∧ k = bn - j ∧ fetch (bn - j) = some h) := by
  intro fuel
  induction fuel with
  | zero =>
    intro i
    simp only [collectHashesFrom, List.not_mem_nil, false_iff]
    rintro ⟨j, h1, h2, -⟩
    omega
  | succ f ih =>
    intro i
    unfold collectHashesFrom
    by_cases hlt : bn < i
    · rw [if_pos hlt]
      simp only [List.not_mem_nil, false_iff]
      rintro ⟨j, h1, h2, h3, -⟩
      omega
    · rw [if_neg hlt]
      cases hf : fetch (bn - i) with
      | some h0 =>
        rw [List.mem_cons, ih (i + 1)]
        constructor
        · rintro (heq | ⟨j, hj1, hj2, hj3, hj4, hj5⟩)
          · injection heq with hk hh
            exact ⟨i, Nat.le_refl i, by omega, by omega, hk, by rw [hf, hh]⟩
          · exact ⟨j, by omega, by omega, hj3, hj4, hj5⟩
        · rintro ⟨j, hj1, hj2, hj3, hj4, hj5⟩
          rcases Nat.eq_or_lt_of_le hj1 with hji | hji
          · left
            subst hji
            rw [hf] at hj5
            injection hj5 with hh
            rw [hj4, hh]
          · right
            exact ⟨j, by omega, by omega, hj3, hj4, hj5⟩
      | none =>
        rw [ih (i + 1)]
        constructor
        · rintro ⟨j, hj1, hj2, hj3, hj4, hj5⟩
          exact ⟨j, by omega, by omega, hj3, hj4, hj5⟩
        · rintro ⟨j, hj1, hj2, hj3, hj4, hj5⟩
          rcases Nat.eq_or_lt_of_le hj1 with hji | hji
          · subst hji
            rw [hf] at hj5
            cases hj5
          · exact ⟨j, by omega, by omega, hj3, hj4, hj5⟩

/-- C7: for any successful probe with window `count ≥ 0`, the collected
hash map has at most `count` entries, every key lies in the window
`[height − count + 1, height]` (truncated at 0; the loop stops before
computing a negative target), and a failed or missing per-block fetch is
non-fatal: exactly the in-window heights whose fetch succeeded appear. -/
theorem collectHashes_window (fetch : Nat → Option Hash) (bn count : Nat) :
    (collectHashes fetch bn count).length ≤ count
    ∧ (∀ k h, (k, h) ∈ collectHashes fetch bn count ↔
        (k ≤ bn ∧ bn < k + count ∧ fetch k = some h)) := by
  constructor
  · exact collectHashesFrom_length fetch bn count 0
  · intro k h
    rw [collectHashes, mem_collectHashesFrom]
    constructor
    · rintro ⟨j, hj1, hj2, hj3, rfl, hj5⟩
      exact ⟨by omega, by omega, hj5⟩
    · rintro ⟨h1, h2, h3⟩
      refine ⟨bn - k, by omega, by omega, by omega, by omega, ?_⟩
      rw [show bn - (bn - k) = k by omega]
      exact h3

/-! ## Claim C4: first-match-wins classification -/

/-- Rule (a): a node with a probe failure is classified by it at once. -/
theorem classify_err (opts : OptionsM) (expected : Option Int) (maxBlock : Nat)
    (n : NodeResult) (e : String) (he : n.error = some e) :
    classify opts expected maxBlock n
      = some ⟨n.id, n.chain, n.address, connReason e⟩ := by
  unfold classify
  rw [he]

/-- A node that passes rules (a) and (b) is classified by the tail rules
(block gap, then debug mode). -/
theorem classify_noerr_eq_tail (opts : OptionsM) (expected : Option Int)
    (maxBlock : Nat) (n : NodeResult) (he : n.error = none)
    (hid : ∀ exp cid, expected = some exp → n.chainID = some cid → cid = exp) :
    classify opts expected maxBlock n = classifyTail opts maxBlock n := by
  unfold classify
  rw [he]
  cases hE : expected with
  | none => cases n.chainID <;> rfl
  | some exp =>
    cases hC : n.chainID with
    | none => rfl
    | some cid =>
      have hce : cid = exp := hid exp cid hE hC
      simp [hce]

/-- C4: nodes are classified in input order by the first matching rule of
(a) failure, (b) chain-ID mismatch against the baseline, (c) block gap
over `maxGap`, (d) debug mode missing while enabled, with at most one
rule record per node; hash-mismatch records are produced independently
by a second pass over the same node list and are appended after all rule
records, so they can co-occur with a node's rule failure. -/
theorem classification_first_match_wins (opts : OptionsM) (chain : String)
    (nodes : List NodeResult) (n : NodeResult) :
    ((checkChain opts chain nodes).failedNodes
        = ruleFailures opts nodes ++ hashFailures nodes)
    ∧ (ruleFailures opts nodes).length ≤ nodes.length
    ∧ (∀ e, n.error = some e →
        classify opts (expectedChainIDOf nodes) (maxBlockNumberOf nodes) n
          = some ⟨n.id, n.chain, n.address, connReason e⟩)
    ∧ (∀ exp cid, n.error = none → expectedChainIDOf nodes = some exp →
        n.chainID = some cid → cid ≠ exp →
        classify opts (expectedChainIDOf nodes) (maxBlockNumberOf nodes) n
          = some ⟨n.id, n.chain, n.address, mismatchReason exp cid⟩)
    ∧ (n.error = none →
        (∀ exp cid, expectedChainIDOf nodes = some exp → n.chainID = some cid → cid = exp) →
        goSub64 (maxBlockNumberOf nodes) n.blockNumber > opts.maxBlockGap →
        classify opts (expectedChainIDOf nodes) (maxBlockNumberOf nodes) n
          = some ⟨n.id, n.chain, n.address,
                  gapReason (goSub64 (maxBlockNumberOf nodes) n.blockNumber)
                    opts.maxBlockGap⟩)
    ∧ (n.error = none →
        (∀ exp cid, expectedChainIDOf nodes = some exp → n.chainID = some cid → cid = exp) →
        ¬(goSub64 (maxBlockNumberOf nodes) n.blockNumber > opts.maxBlockGap) →
        opts.checkDebugMode = true → n.debugOK = false →
        classify opts (expectedChainIDOf nodes) (maxBlockNumberOf nodes) n
          = some ⟨n.id, n.chain, n.address, debugReason⟩)
    ∧ (n.error = none →
        (∀ exp cid, expectedChainIDOf nodes = some exp → n.chainID = some cid → cid = exp) →
        ¬(goSub64 (maxBlockNumberOf nodes) n.blockNumber > opts.maxBlockGap) →
        (opts.checkDebugMode = false ∨ n.debugOK = true) →
        classify opts (expectedChainIDOf nodes) (maxBlockNumberOf nodes) n = none) := by
  refine ⟨rfl, ?_, ?_, ?_, ?_, ?_, ?_⟩
  · exact List.length_filterMap_le _ _
  · intro e he
    exact classify_err _ _ _ _ _ he
  · intro exp cid he hE hC hne
    unfold classify
    rw [he, hE, hC]
    simp [hne]
  · intro he hid hgap
    rw [classify_noerr_eq_tail _ _ _ _ he hid]
    unfold classifyTail
    rw [if_pos hgap]
  · intro he hid hgap hdbg hok
    rw [classify_noerr_eq_tail _ _ _ _ he hid]
    unfold classifyTail
    rw [if_neg hgap, if_pos (by simp [hdbg, hok])]
  · intro he hid hgap hdbg
    rw [classify_noerr_eq_tail _ _ _ _ he hid]
    unfold classifyTail
    rcases hdbg with hdbg | hdbg
    · rw [if_neg hgap, if_neg (by simp [hdbg])]
    · rw [if_neg hgap, if_neg (by simp [hdbg])]

/-! ## Claim C1: hash reconciliation per height -/

/-- With two distinct hashes where the second has strictly more reporters,
the vote of checker.go lines 316–324 picks the second. -/
theorem pickMajority_pair (nodes : List NodeResult) (b : Nat) (x y : Hash)
    (hx : (reportingNodes nodes b x).length = 1)
    (hy : 2 ≤ (reportingNodes nodes b y).length) :
    (pickMajority nodes b [x, y]).1 = y := by
  have hgt : (reportingNodes nodes b y).length > 1 := by omega
  unfold pickMajority
  rw [List.foldl_cons, List.foldl_cons, List.foldl_nil]
  simp [hx, hgt]

/-- With two distinct hashes where the first has strictly more reporters,
the vote picks the first: a later minority hash cannot displace it. -/
theorem pickMajority_pair_left (nodes : List NodeResult) (b : Nat) (x y : Hash)
    (hx : 2 ≤ (reportingNodes nodes b x).length)
    (hy : (reportingNodes nodes b y).length = 1) :
    (pickMajority nodes b [x, y]).1 = x := by
  have hgt : (reportingNodes nodes b x).length > 0 := by omega
  have hng : ¬((reportingNodes nodes b y).length
      > (reportingNodes nodes b x).length) := by omega
  have hne : reportingNodes nodes b x ≠ [] := by
    intro h0
    rw [h0] at hx
    simp at hx
  unfold pickMajority
  rw [List.foldl_cons, List.foldl_cons, List.foldl_nil]
  simp [hy, hgt, hng, hne]

/-- C1: at a height where at least one successful node reported a hash,
a unanimous height produces no hash-mismatch record, and a height where
exactly one node's hash differs from that of all the other (at least two)
reporting nodes produces exactly one record, naming the dissenting node.
The two symmetric conjuncts cover the dissenting hash appearing first or
second in the embedding's iteration order over the distinct hashes. -/
theorem hash_reconciliation_per_height (nodes : List NodeResult) (b : Nat)
    (x y : Hash) (d : String) :
    ((hashesAt nodes b).length ≤ 1 → failuresAtHeight nodes b = [])
    ∧ (hashesAt nodes b = [x, y] → reportingNodes nodes b x = [d] →
        2 ≤ (reportingNodes nodes b y).length →
        failuresAtHeight nodes b
          = [⟨d, nodeChainFor nodes d, nodeAddrFor nodes d, hashMismatchReason b x y⟩])
    ∧ (hashesAt nodes b = [x, y] → 2 ≤ (reportingNodes nodes b x).length →
        reportingNodes nodes b y = [d] →
        failuresAtHeight nodes b
          = [⟨d, nodeChainFor nodes d, nodeAddrFor nodes d, hashMismatchReason b y x⟩]) := by
  refine ⟨?_, ?_, ?_⟩
  · intro hle
    unfold failuresAtHeight
    rw [if_pos hle]
  · intro h1 h2 h3
    have hnd : ([x, y] : List Hash).Nodup := by
      rw [← h1]
      unfold hashesAt
      exact List.nodup_dedup _
    have hxy : x ≠ y := by
      intro he
      rw [he] at hnd
      simp at hnd
    unfold failuresAtHeight
    rw [h1]
    have hmaj : (pickMajority nodes b [x, y]).1 = y :=
      pickMajority_pair nodes b x y (by rw [h2]; rfl) h3
    rw [hmaj, if_neg (by simp)]
    simp [hxy, mkHashFailures, h2]
  · intro h1 h2 h3
    have hnd : ([x, y] : List Hash).Nodup := by
      rw [← h1]
      unfold hashesAt
      exact List.nodup_dedup _
    have hxy : x ≠ y := by
      intro he
      rw [he] at hnd
      simp at hnd
    unfold failuresAtHeight
    rw [h1]
    have hmaj : (pickMajority nodes b [x, y]).1 = x :=
      pickMajority_pair_left nodes b x y h2 (by rw [h3]; rfl)
    rw [hmaj, if_neg (by simp)]
    simp [Ne.symm hxy, mkHashFailures, h3]

/-! ## Concrete inputs for witnesses and counterexamples -/

/-- Probe result: healthy node reporting hash 1 at height 500. -/
def c1n1 : NodeResult := ⟨"A", "c", "a1", some 1, 100, [(500, 1)], true, none⟩

/-- Probe result: dissenting node reporting hash 2 at height 500. -/
def c1n2 : NodeResult := ⟨"B", "c", "a2", some 1, 100, [(500, 2)], true, none⟩

/-- Probe result: healthy node reporting hash 1 at height 500. -/
def c1n3 : NodeResult := ⟨"C", "c", "a3", some 1, 100, [(500, 1)], true, none⟩

/-- Probe result: healthy node reporting hash 1 at height 500. -/
def c1n4 : NodeResult := ⟨"D", "c", "a4", some 1, 100, [(500, 1)], true, none⟩

/-- A chain with three nodes agreeing on hash 1 and one dissenter. -/
def c1Nodes : List NodeResult := [c1n1, c1n2, c1n3, c1n4]

/-- Witness for C1 at a concrete input: three nodes report hash 1 at
height 500, one reports hash 2; exactly one record is produced and it
names the dissenter. -/
theorem hash_reconciliation_witness :
    failuresAtHeight c1Nodes 500
      = [⟨"B", "c", "a2", hashMismatchReason 500 2 1⟩] :=
  (hash_reconciliation_per_height c1Nodes 500 2 1 "B").2.1
    (by decide) (by decide) (by decide)

/-! ## Claim C2: the block-gap rule -/

/-- Probe result: healthy node at height 100 on chain ID 1. -/
def c2NodeA : NodeResult := ⟨"A", "x", "uA", some 1, 100, [], true, none⟩

/-- Probe result: node at height 0 reporting the wrong chain ID 2. -/
def c2NodeB : NodeResult := ⟨"B", "x", "uB", some 2, 0, [], true, none⟩

/-- A chain whose second node fails the chain-ID rule and also lags far
beyond the gap limit. -/
def c2Nodes : List NodeResult := [c2NodeA, c2NodeB]

/-- C2 counterexample: node B completed without failure and its gap
(100) exceeds `maxGap` (10), yet no block-gap record is produced for it:
first-match-wins classification already recorded its chain-ID mismatch.
So "a block-gap FailureRecord is produced iff maxHeight − height >
maxGap" fails for nodes caught by an earlier rule. -/
theorem gap_rule_not_iff_counterexample :
    c2NodeB.error = none
    ∧ c2NodeB ∈ c2Nodes
    ∧ maxBlockNumberOf c2Nodes - c2NodeB.blockNumber > DefaultOptions.maxBlockGap
    ∧ (ruleFailures DefaultOptions c2Nodes).filter
        (fun r => strBeginsWith r.reason "block gap too large:") = [] := by
  refine ⟨rfl, by decide, by decide, by decide⟩

/-- C2 amended: for every node that completed without failure and passes
the chain-ID comparison, a block-gap record is produced iff
`maxHeight − height > maxGap` (so the boundary `gap = maxGap` does not
fail), and the `uint64` subtraction never wraps because `maxHeight` is
the maximum height over successful nodes. -/
theorem gap_rule_iff (opts : OptionsM) (nodes : List NodeResult) (n : NodeResult)
    (hn : n ∈ nodes) (he : n.error = none)
    (hid : ∀ exp cid, expectedChainIDOf nodes = some exp → n.chainID = some cid → cid = exp)
    (hb : ∀ m ∈ nodes, m.blockNumber < 2 ^ 64) :
    goSub64 (maxBlockNumberOf nodes) n.blockNumber
        = maxBlockNumberOf nodes - n.blockNumber
    ∧ (classify opts (expectedChainIDOf nodes) (maxBlockNumberOf nodes) n
          = some ⟨n.id, n.chain, n.address,
                  gapReason (maxBlockNumberOf nodes - n.blockNumber) opts.maxBlockGap⟩
        ↔ maxBlockNumberOf nodes - n.blockNumber > opts.maxBlockGap) := by
  have h1 : n.blockNumber ≤ maxBlockNumberOf nodes := blockNumber_le_max nodes n hn he
  have h2 : maxBlockNumberOf nodes < 2 ^ 64 := maxBlockNumberOf_lt nodes hb
  have h3 : goSub64 (maxBlockNumberOf nodes) n.blockNumber
      = maxBlockNumberOf nodes - n.blockNumber := goSub64_eq _ _ h1 h2
  refine ⟨h3, ?_⟩
  rw [classify_noerr_eq_tail opts _ _ n he hid]
  unfold classifyTail
  rw [h3]
  by_cases hgap : maxBlockNumberOf nodes - n.blockNumber > opts.maxBlockGap
  · simp [hgap]
  · rw [if_neg hgap]
    constructor
    · intro hcl
      by_cases hdbg : opts.checkDebugMode && !n.debugOK
      · rw [if_pos hdbg] at hcl
        injection hcl with hcl2
        injection hcl2 with _ _ _ hr
        exact absurd hr.symm (gapReason_ne_debugReason _ _)
      · rw [if_neg hdbg] at hcl
        cases hcl
    · intro hgt
      exact absurd hgt hgap

/-- Probe result: healthy node at height 100 on chain ID 1. -/
def c2wA : NodeResult := ⟨"A", "x", "uA", some 1, 100, [], true, none⟩

/-- Probe result: healthy node at height 94 on chain ID 1. -/
def c2wB : NodeResult := ⟨"B", "x", "uB", some 1, 94, [], true, none⟩

/-- A chain whose second node lags by 6 blocks. -/
def c2wNodes : List NodeResult := [c2wA, c2wB]

/-- Engine options with `maxGap = 5`. -/
def c2wOpts : OptionsM := ⟨5, 5, true⟩

/-- Witness for C2 at a concrete input: gap 6 with `maxGap = 5` yields
the block-gap record. -/
theorem gap_rule_iff_witness :
    classify c2wOpts (expectedChainIDOf c2wNodes) (maxBlockNumberOf c2wNodes) c2wB
      = some ⟨"B", "x", "uB", gapReason 6 5⟩ :=
  ((gap_rule_iff c2wOpts c2wNodes c2wB (by decide) rfl
      (fun exp cid h1 h2 => by
        have e1 : some (1 : Int) = some exp := h1
        have e2 : some (1 : Int) = some cid := h2
        injection e1 with e1
        injection e2 with e2
        rw [← e1, ← e2])
      (by decide)).2).mpr (by decide)

/-! ## Claim C3: baselines of a chain -/

/-- The baseline loop of checker.go lines 127–133 written as a bind over
the first matching node. -/
theorem expectedChainIDOf_eq_bind (nodes : List NodeResult) :
    expectedChainIDOf nodes
      = (nodes.find? (fun n => n.error.isNone && n.chainID.isSome)).bind
          (fun n => n.chainID) := by
  unfold expectedChainIDOf
  cases nodes.find? (fun n => n.error.isNone && n.chainID.isSome) <;> rfl

/-- When every error-free node carries a chain ID (as every `checkNode`
result does), the first node passing `Error == nil && ChainID != nil` is
the first node passing `Error == nil`. -/
theorem find?_success_eq (l : List NodeResult)
    (hinv : ∀ n ∈ l, n.error = none → n.chainID.isSome = true) :
    l.find? (fun n => n.error.isNone && n.chainID.isSome)
      = l.find? (fun n => n.error.isNone) := by
  induction l with
  | nil => rfl
  | cons n t ih =>
    rw [List.find?_cons, List.find?_cons]
    by_cases he : n.error.isNone = true
    · have hs : n.chainID.isSome = true :=
        hinv n (by simp) (Option.isNone_iff_eq_none.mp he)
      simp [he, hs]
    · have he2 : n.error.isNone = false := Bool.eq_false_iff.mpr he
      simp only [he2, Bool.false_and, cond_false]
      exact ih (fun m hm hme => hinv m (by simp [hm]) hme)

/-- C3: `maxHeight` is the maximum height over exactly the error-free
nodes; the baseline chain ID is the chain ID of the first node in input
order that completed without failure; and when every node failed,
`maxHeight` is 0, the baseline is absent, and every record of the chain
is a connection record (no chain-ID-mismatch check fires). -/
theorem baseline_and_maxheight (opts : OptionsM) (chain : String)
    (nodes : List NodeResult)
    (hinv : ∀ n ∈ nodes, n.error = none → n.chainID.isSome = true) :
    (expectedChainIDOf nodes
        = (nodes.find? (fun n => n.error.isNone)).bind (fun n => n.chainID))
    ∧ maxBlockNumberOf nodes = maxHeightOfSuccessful nodes
    ∧ ((∀ n ∈ nodes, n.error ≠ none) →
        expectedChainIDOf nodes = none
        ∧ maxBlockNumberOf nodes = 0
        ∧ ∀ r ∈ (checkChain opts chain nodes).failedNodes,
            ∃ n ∈ nodes, ∃ e, n.error = some e
              ∧ r = ⟨n.id, n.chain, n.address, connReason e⟩) := by
  refine ⟨?_, maxBlockNumberOf_eq nodes, ?_⟩
  · rw [expectedChainIDOf_eq_bind, find?_success_eq nodes hinv]
  · intro hall
    have hsucc : succNodes nodes = [] := by
      unfold succNodes
      rw [List.filter_eq_nil_iff]
      intro n hn
      simp [Option.isNone_iff_eq_none, hall n hn]
    refine ⟨?_, ?_, ?_⟩
    · rw [expectedChainIDOf_eq_bind]
      rw [List.find?_eq_none.mpr]
      · rfl
      · intro n hn
        simp [Option.isNone_iff_eq_none, hall n hn]
    · rw [maxBlockNumberOf_eq]
      unfold maxHeightOfSuccessful
      rw [hsucc]
      rfl
    · intro r hr
      have hhf : hashFailures nodes = [] := by
        unfold hashFailures observedHeights
        rw [hsucc]
        rfl
      have hr2 : r ∈ ruleFailures opts nodes := by
        have : (checkChain opts chain nodes).failedNodes
            = ruleFailures opts nodes ++ hashFailures nodes := rfl
        rw [this, hhf, List.append_nil] at hr
        exact hr
      rcases List.mem_filterMap.mp hr2 with ⟨n, hn, hcl⟩
      rcases Option.ne_none_iff_exists.mp (hall n hn) with ⟨e, he⟩
      refine ⟨n, hn, e, he.symm, ?_⟩
      rw [classify_err opts _ _ n e he.symm] at hcl
      exact (Option.some.inj hcl).symm

/-- Probe result: a node whose connection attempt failed. -/
def c3Fail : NodeResult := ⟨"F", "x", "uF", none, 0, [], false,
  some "failed to connect: refused"⟩

/-- Probe result: a healthy node on chain ID 5 at height 42. -/
def c3Ok : NodeResult := ⟨"O", "x", "uO", some 5, 42, [], true, none⟩

/-- A chain with one failed and one successful node. -/
def c3Nodes : List NodeResult := [c3Fail, c3Ok]

/-- Witness for C3 at a concrete input: the baseline is the first
successful node's chain ID and `maxHeight` the maximum over successful
nodes. -/
theorem baseline_and_maxheight_witness :
    expectedChainIDOf c3Nodes
        = (c3Nodes.find? (fun n => n.error.isNone)).bind (fun n => n.chainID)
    ∧ maxBlockNumberOf c3Nodes = maxHeightOfSuccessful c3Nodes :=
  ⟨(baseline_and_maxheight DefaultOptions "x" c3Nodes (by decide)).1,
   (baseline_and_maxheight DefaultOptions "x" c3Nodes (by decide)).2.1⟩

/-! ## Claim C6: failed nodes are recorded and excluded -/

/-- Filtering the successful nodes twice is the same as filtering once. -/
theorem succNodes_idem (nodes : List NodeResult) :
    succNodes (succNodes nodes) = succNodes nodes := by
  unfold succNodes
  induction nodes with
  | nil => rfl
  | cons n t ih =>
    rw [List.filter_cons]
    by_cases he : n.error.isNone = true
    · rw [if_pos he, List.filter_cons, if_pos he, ih]
    · rw [if_neg (by simpa using he), ih]

/-- Finding with a stronger predicate is unaffected by filtering with a
weaker one. -/
theorem find?_filter_of_imp (l : List NodeResult) (p q : NodeResult → Bool)
    (himp : ∀ a, p a = true → q a = true) :
    (l.filter q).find? p = l.find? p := by
  induction l with
  | nil => rfl
  | cons a t ih =>
    rw [List.filter_cons]
    by_cases hq : q a = true
    · rw [if_pos hq, List.find?_cons, List.find?_cons]
      cases hp : p a
      · simpa using ih
      · simp
    · have hp : p a = false := by
        cases hpa : p a
        · rfl
        · exact absurd (himp a hpa) hq
      rw [if_neg (by simpa using hq), List.find?_cons, hp]
      simpa using ih

/-- Failed nodes do not take part in the baseline chain-ID pick. -/
theorem expectedChainIDOf_succ (nodes : List NodeResult) :
    expectedChainIDOf (succNodes nodes) = expectedChainIDOf nodes := by
  rw [expectedChainIDOf_eq_bind, expectedChainIDOf_eq_bind]
  unfold succNodes
  rw [find?_filter_of_imp _ _ _
    (fun a ha => by
      rw [Bool.and_eq_true] at ha
      exact ha.1)]

/-- Failed nodes do not pull the chain's maximum height down (or up). -/
theorem maxBlockNumberOf_succ (nodes : List NodeResult) :
    maxBlockNumberOf (succNodes nodes) = maxBlockNumberOf nodes := by
  rw [maxBlockNumberOf_eq, maxBlockNumberOf_eq]
  unfold maxHeightOfSuccessful
  rw [succNodes_idem]

/-- Failed nodes contribute no distinct hash values to the vote. -/
theorem hashesAt_succ (nodes : List NodeResult) (b : Nat) :
    hashesAt (succNodes nodes) b = hashesAt nodes b := by
  unfold hashesAt
  rw [succNodes_idem]

/-- Failed nodes are not counted as reporters of any hash. -/
theorem reportingNodes_succ (nodes : List NodeResult) (b : Nat) (x : Hash) :
    reportingNodes (succNodes nodes) b x = reportingNodes nodes b x := by
  unfold reportingNodes
  rw [succNodes_idem]

/-- Probe result: a node whose connection attempt failed. -/
def c6Bad : NodeResult := ⟨"F", "x", "uF", none, 0, [], false,
  some "failed to connect: refused"⟩

/-- C6 counterexample: the record produced for a node whose connection
attempt failed has reason `"connection error: ..."`, which does NOT begin
with the claimed prefix `"connection/query error:"`. -/
theorem connection_reason_counterexample :
    ruleFailures DefaultOptions [c6Bad]
      = [⟨"F", "x", "uF", "connection error: failed to connect: refused"⟩]
    ∧ strBeginsWith "connection error: failed to connect: refused"
        "connection/query error:" = false := by
  refine ⟨by decide, by decide⟩

/-- C6 amended: a node whose probe failed gets a FailureRecord whose
reason begins `"connection error:"` (not `"connection/query error:"`),
and failed nodes are excluded from the baseline chain-ID pick, from the
maximum-height computation, and from hash voting: all of those are
computed from the error-free nodes alone. -/
theorem connection_failure_reason_and_exclusion (opts : OptionsM)
    (nodes : List NodeResult) (n : NodeResult) (msg : String) (b : Nat) (x : Hash)
    (hn : n ∈ nodes) (he : n.error = some msg) :
    ((⟨n.id, n.chain, n.address, connReason msg⟩ : FailedNode) ∈ ruleFailures opts nodes)
    ∧ (∃ rest, connReason msg = "connection error:" ++ rest)
    ∧ expectedChainIDOf (succNodes nodes) = expectedChainIDOf nodes
    ∧ maxBlockNumberOf (succNodes nodes) = maxBlockNumberOf nodes
    ∧ hashesAt (succNodes nodes) b = hashesAt nodes b
    ∧ reportingNodes (succNodes nodes) b x = reportingNodes nodes b x := by
  refine ⟨?_, ?_, expectedChainIDOf_succ nodes, maxBlockNumberOf_succ nodes,
    hashesAt_succ nodes b, reportingNodes_succ nodes b x⟩
  · exact List.mem_filterMap.mpr ⟨n, hn, classify_err _ _ _ _ _ he⟩
  · refine ⟨" " ++ msg, ?_⟩
    unfold connReason
    rw [show ("connection error: " : String) = "connection error:" ++ " " from rfl,
        strAppend_assoc]

/-- Witness for C6 at a concrete input: the failed node's record is
present with its `"connection error:"` reason. -/
theorem connection_failure_witness :
    (⟨"F", "x", "uF", connReason "failed to connect: refused"⟩ : FailedNode)
      ∈ ruleFailures DefaultOptions [c6Bad] :=
  (connection_failure_reason_and_exclusion DefaultOptions [c6Bad] c6Bad
    "failed to connect: refused" 0 0 (by decide) rfl).1

/-! ## Claim C8: success/failure dichotomy of a probe -/

/-- An endpoint that answers the chain-ID query but fails the height
query. -/
def c8Ep : Endpoint :=
  { dialErr := none, chainIDRes := .ok 7, blockNumberRes := .error "boom",
    blockAt := fun _ => none, debugAt := fun _ => false }

/-- Descriptor of the probed node. -/
def c8Info : NodeInfo := ⟨"N", "x", "uN"⟩

/-- C8 counterexample: a probe that fails at the height query yields an
outcome with `failure` present AND `networkID` populated with the queried
chain ID, so a failed outcome's non-failure fields do not all carry
meaningless zero values. -/
theorem checkNode_failed_fields_counterexample :
    (checkNode DefaultOptions c8Info c8Ep).error
        = some "failed to get block number: boom"
    ∧ (checkNode DefaultOptions c8Info c8Ep).chainID = some 7 :=
  ⟨rfl, rfl⟩

/-- C8 amended: a failure at any required step short-circuits the probe,
so every field a later step would set keeps its zero value (`height = 0`,
no hashes, `traceCapable = false`); `networkID` is absent too unless the
failure happened at the height query, which runs after the chain ID was
already stored.  Conversely a fail-free outcome carries all queried
values. -/
theorem checkNode_short_circuit (opts : OptionsM) (n : NodeInfo) (ep : Endpoint) :
    ((checkNode opts n ep).error.isSome = true →
        (checkNode opts n ep).blockNumber = 0
        ∧ (checkNode opts n ep).blockHashes = []
        ∧ (checkNode opts n ep).debugOK = false
        ∧ ((checkNode opts n ep).chainID = none
            ∨ (∃ cid, ep.chainIDRes = .ok cid ∧ (checkNode opts n ep).chainID = some cid)
              ∧ ∃ e, ep.blockNumberRes = .error e))
    ∧ ((checkNode opts n ep).error = none →
        ep.dialErr = none
        ∧ ∃ cid bn, ep.chainIDRes = .ok cid ∧ ep.blockNumberRes = .ok bn
            ∧ checkNode opts n ep
              = ⟨n.id, n.chain, n.address, some cid, bn,
                 collectHashes ep.blockAt bn opts.blockHashCount,
                 if opts.checkDebugMode then ep.debugAt bn else true, none⟩) := by
  unfold checkNode
  cases hd : ep.dialErr with
  | some e => simp
  | none =>
    cases hc : ep.chainIDRes with
    | error e => simp
    | ok cid =>
      cases hb : ep.blockNumberRes with
      | error e =>
        constructor
        · intro _
          exact ⟨rfl, rfl, rfl, Or.inr ⟨⟨cid, rfl, rfl⟩, e, rfl⟩⟩
        · intro hcontra
          cases hcontra
      | ok bn =>
        constructor
        · intro hcontra
          cases hcontra
        · intro _
          exact ⟨rfl, cid, bn, rfl, rfl, rfl⟩

/-! ## Claim C9: the evaluation entry point -/

/-- The URL scan accepts exactly the connector lists with no empty URL
and no URL repeated (or clashing with one already seen). -/
theorem findURLError_eq_none_iff (ps : List (String × Connector)) :
    ∀ (seen : List String),
      (findURLError seen ps = none ↔
        (∀ p ∈ ps, p.2.url ≠ "" ∧ p.2.url ∉ seen)
          ∧ (ps.map (fun p => p.2.url)).Nodup) := by
  induction ps with
  | nil =>
    intro seen
    simp [findURLError]
  | cons p rest ih =>
    intro seen
    obtain ⟨uid, c⟩ := p
    rw [findURLError]
    by_cases h1 : c.url = ""
    · rw [if_pos h1]
      constructor
      · intro hcontra
        cases hcontra
      · rintro ⟨hall, -⟩
        exact absurd h1 (hall (uid, c) (by simp)).1
    · rw [if_neg h1]
      by_cases h2 : c.url ∈ seen
      · rw [if_pos h2]
        constructor
        · intro hcontra
          cases hcontra
        · rintro ⟨hall, -⟩
          exact absurd h2 (hall (uid, c) (by simp)).2
      · rw [if_neg h2, ih (c.url :: seen)]
        constructor
        · rintro ⟨hall, hnd⟩
          refine ⟨?_, ?_⟩
          · intro q hq
            rcases List.mem_cons.mp hq with hq | hq
            · subst hq
              exact ⟨h1, h2⟩
            · have := hall q hq
              exact ⟨this.1, fun hin => this.2 (List.mem_cons_of_mem _ hin)⟩
          · rw [List.map_cons, List.nodup_cons]
            refine ⟨?_, hnd⟩
            intro hin
            rcases List.mem_map.mp hin with ⟨q, hq, hqe⟩
            exact (hall q hq).2 (by rw [hqe]; exact List.mem_cons_self _ _)
        · rintro ⟨hall, hnd⟩
          rw [List.map_cons, List.nodup_cons] at hnd
          refine ⟨?_, hnd.2⟩
          intro q hq
          have hq2 := hall q (List.mem_cons_of_mem _ hq)
          refine ⟨hq2.1, ?_⟩
          intro hin
          rcases List.mem_cons.mp hin with hin | hin
          · exact hnd.1 (List.mem_map.mpr ⟨q, hq, hin⟩)
          · exact hq2.2 hin

/-- C9 amended: the pipeline returns a report exactly when the
configuration validation passes, and validation passes exactly when
there is at least one upstream, no connector URL is empty, and no URL is
duplicated.  A configuration that passes validation can still contain no
json-rpc connector at all, producing a report with no chains (see the
counterexample) rather than a fatal error. -/
theorem runCheck_report_iff_valid_config (opts : OptionsM) (cfg : Config)
    (ep : String → Endpoint) :
    ((validateConfig cfg).isOk = true ↔
        cfg.upstreams ≠ []
        ∧ (∀ p ∈ connectorPairs cfg, p.2.url ≠ "")
        ∧ ((connectorPairs cfg).map (fun p => p.2.url)).Nodup)
    ∧ ((runCheck opts cfg ep).isOk = true ↔ (validateConfig cfg).isOk = true) := by
  constructor
  · unfold validateConfig
    by_cases hemp : cfg.upstreams.isEmpty
    · rw [if_pos hemp]
      constructor
      · intro hcontra
        cases hcontra
      · intro hcontra
        exact absurd (List.isEmpty_iff.mp hemp) hcontra.1
    · rw [if_neg hemp]
      have hne : cfg.upstreams ≠ [] := by
        intro h0
        exact hemp (by simp [h0])
      cases hf : findURLError [] (connectorPairs cfg) with
      | some e =>
        constructor
        · intro hcontra
          cases hcontra
        · intro hcontra
          have hnone : findURLError [] (connectorPairs cfg) = none := by
            rw [findURLError_eq_none_iff]
            exact ⟨fun p hp => ⟨hcontra.2.1 p hp, by simp⟩, hcontra.2.2⟩
          rw [hf] at hnone
          cases hnone
      | none =>
        constructor
        · intro _
          have hxx := (findURLError_eq_none_iff (connectorPairs cfg) []).mp hf
          exact ⟨hne, fun p hp => (hxx.1 p hp).1, hxx.2⟩
        · intro _
          rfl
  · unfold runCheck
    cases validateConfig cfg <;> exact Iff.rfl

/-- A configuration with one upstream whose only connector is not of the
json-rpc family. -/
def c9Cfg : Config := ⟨[⟨"up1", "chainx", [⟨"grpc", "http://u"⟩]⟩]⟩

/-- An endpoint that refuses every operation. -/
def c9Ep : Endpoint :=
  { dialErr := some "refused", chainIDRes := .error "dead",
    blockNumberRes := .error "dead", blockAt := fun _ => none,
    debugAt := fun _ => false }

/-- C9 counterexample: this configuration passes `Load`'s validation, yet
it yields no chains at all, and the run returns a passing report with no
chains instead of the fatal error the claim requires. -/
theorem runCheck_no_chains_counterexample :
    validateConfig c9Cfg = .ok c9Cfg
    ∧ getNodesByChain c9Cfg = []
    ∧ runCheck DefaultOptions c9Cfg (fun _ => c9Ep)
        = .ok { chainResults := [], failedNodes := [], passed := true } :=
  ⟨rfl, rfl, rfl⟩

/-! ## Claim C10: hash-mismatch records copy the first ID match -/

/-- C10: every hash-mismatch record's chain and address are copied from
the FIRST node in the chain's node sequence whose ID equals the
dissenting node's ID — so when two nodes share an ID, a record for the
later node carries the earlier node's address (see the witness). -/
theorem hash_failure_uses_first_id_match (nodes : List NodeResult) (r : FailedNode)
    (hr : r ∈ hashFailures nodes) :
    ∃ n, nodes.find? (fun m => m.id == r.id) = some n
      ∧ r.address = n.address ∧ r.chain = n.chain := by
  unfold hashFailures at hr
  rcases List.mem_flatMap.mp hr with ⟨b, hb, hr2⟩
  unfold failuresAtHeight at hr2
  by_cases hlen : (hashesAt nodes b).length ≤ 1
  · rw [if_pos hlen] at hr2
    cases hr2
  · rw [if_neg hlen] at hr2
    rcases List.mem_flatMap.mp hr2 with ⟨x, hx, hr3⟩
    unfold mkHashFailures at hr3
    rcases List.mem_map.mp hr3 with ⟨nodeID, hnid, rfl⟩
    unfold reportingNodes at hnid
    rcases List.mem_map.mp hnid with ⟨m, hmm, rfl⟩
    have hmem : m ∈ nodes := (List.mem_filter.mp (List.mem_filter.mp hmm).1).1
    have hfind : (nodes.find? (fun k => k.id == m.id)).isSome = true :=
      List.find?_isSome.mpr ⟨m, hmem, by simp⟩
    rcases Option.isSome_iff_exists.mp hfind with ⟨n, hn⟩
    refine ⟨n, hn, ?_, ?_⟩
    · show nodeAddrFor nodes m.id = n.address
      unfold nodeAddrFor
      rw [hn]
    · show nodeChainFor nodes m.id = n.chain
      unfold nodeChainFor
      rw [hn]

/-- Probe result: first node of upstream `up1` (connector address a1). -/
def c10n1 : NodeResult := ⟨"up1", "c", "a1", some 1, 100, [(500, 1)], true, none⟩

/-- Probe result: second node of upstream `up1` (connector address a2),
dissenting on the hash of block 500. -/
def c10n2 : NodeResult := ⟨"up1", "c", "a2", some 1, 100, [(500, 2)], true, none⟩

/-- Probe result: healthy node on its own upstream. -/
def c10n3 : NodeResult := ⟨"up3", "c", "a3", some 1, 100, [(500, 1)], true, none⟩

/-- Probe result: healthy node on its own upstream. -/
def c10n4 : NodeResult := ⟨"up4", "c", "a4", some 1, 100, [(500, 1)], true, none⟩

/-- A chain where one upstream (`up1`) has two connectors sharing its ID,
and the second of them dissents at height 500. -/
def c10Nodes : List NodeResult := [c10n1, c10n2, c10n3, c10n4]

/-- Witness for C10 at a concrete input: the dissenting node is `up1`'s
second connector (address a2), yet the record carries the first ID
match's address a1. -/
theorem hash_failure_first_id_witness :
    ∃ n, c10Nodes.find? (fun m => m.id == "up1") = some n
      ∧ "a1" = n.address ∧ "c" = n.chain :=
  hash_failure_uses_first_id_match c10Nodes
    ⟨"up1", "c", "a1", hashMismatchReason 500 2 1⟩ (by decide)

end EvmNodeCheck
